import Mathlib

/-!
Verification of the Context & Reuse-Resolution Engine of the
filecoin-upload-action repository: a shallow embedding of the payment guard
(`src/filecoin.js` `handlePayments`), the context store (`src/context.js`),
the reuse resolver (`src/upload.js` `prepareReuse` and the standalone
`src/prepare-reuse.js` script), the artifact-identity resolvers
(`src/artifacts.js` and `src/build.js` `determineArtifactName`) and the
upload orchestrator (`src/upload.js` `runUpload`), with theorems checking
the natural-language specification against the code.
-/

namespace FilecoinAction

/-! ## JSON value model

JavaScript values flowing through the engine are JSON values: the context
record is `JSON.parse`d from `action-context/context.json`, event payloads
are parsed JSON, and merge operates on plain objects.  Objects are modelled
as association lists in insertion order, mirroring JS object key order. -/

inductive Json where
  | null
  | bool (b : Bool)
  | num (n : Int)
  | str (s : String)
  | arr (elems : List Json)
  | obj (fields : List (String × Json))
deriving Repr

/-- JS truthiness of a JSON value (`if (x)`): `null`, `false`, `0` and `""`
are falsy; arrays and objects are always truthy. -/
def jsTruthy : Json → Bool
  | .null => false
  | .bool b => b
  | .num n => n != 0
  | .str s => s != ""
  | .arr _ => true
  | .obj _ => true

/-- `typeof x === 'object'` for a JSON value: true for objects, arrays and
`null` (a JS quirk), false for numbers, strings and booleans. -/
def jsTypeofIsObject : Json → Bool
  | .null => true
  | .arr _ => true
  | .obj _ => true
  | _ => false

/-- Property access `x.k` on a JSON value: `undefined` (here `none`) unless
`x` is an object with key `k`.  First binding wins, as JS objects hold each
key once. -/
def jsGet (j : Json) (k : String) : Option Json :=
  match j with
  | .obj fields => (fields.find? (fun p => p.1 == k)).map Prod.snd
  | _ => none

/-- Truthiness of a possibly-`undefined` value (`if (x.k)`). -/
def jsTruthyOpt : Option Json → Bool
  | none => false
  | some j => jsTruthy j

/-- Strict equality `x === s` of a possibly-`undefined` value against a
string literal: true exactly when the value is that string. -/
def jsIsStr (j : Option Json) (s : String) : Bool :=
  match j with
  | some (.str t) => t == s
  | _ => false

/-! ## Payment guard: `handlePayments` (src/filecoin.js lines 55-117)

`handlePayments` receives the current on-chain payment status (we only need
`status.depositedAmount`, the current balance) and the options
`{ minDays, maxBalance?, maxTopUp? }`.  The top-up suggested by the external
collaborator `computeTopUpForDuration` is an input of the model
(`suggested`); everything after that call is translated line by line.
Amounts are `bigint` in the source and are modelled as `Int`. -/

structure PaymentOptions where
  minDays : Int
  maxBalance : Option Int
  maxTopUp : Option Int
deriving Repr, DecidableEq

/-- Outcome of `handlePayments`: either the function returns normally after
depositing `deposited` USDFC (`deposited = 0` means `depositUSDFC` was never
called), or it throws the `INSUFFICIENT_FUNDS` exceeds-cap error before any
deposit, carrying the top-up it refused. -/
inductive PaymentResult where
  | ok (deposited : Int)
  | capExceeded (required : Int)
deriving Repr, DecidableEq

/-- Amount actually handed to `depositUSDFC` by a `handlePayments` run: the
exceeds-cap throw happens before the deposit, so nothing is deposited. -/
def depositMade : PaymentResult → Int
  | .ok d => d
  | .capExceeded _ => 0

/-- Lines 65-69: `requiredTopUp` starts at `0n`; when `minDays > 0` it is
raised to the externally computed `topUp` if that is larger. -/
def initialTopUp (suggested minDays : Int) : Int :=
  if 0 < minDays then (if 0 < suggested then suggested else 0) else 0

/-- Lines 72-101: the `maxBalance` clamp.  The guard is
`maxBalance != null && maxBalance > 0n`; at or above the cap the top-up is
zeroed, otherwise it is reduced so the projected balance fits the cap. -/
def clampToMaxBalance (balance : Int) (maxBalance : Option Int) (required : Int) : Int :=
  match maxBalance with
  | none => required
  | some mb =>
    if 0 < mb then
      if mb ≤ balance then 0
      else if mb < balance + required then
        let maxAllowedTopUp := mb - balance
        if maxAllowedTopUp ≤ 0 then 0 else maxAllowedTopUp
      else required
    else required

/-- The top-up `handlePayments` has computed when it reaches line 103: the
`minDays`-driven top-up after the `maxBalance` clamp. -/
def requiredTopUpOf (balance suggested : Int) (minDays : Int) (maxBalance : Option Int) : Int :=
  clampToMaxBalance balance maxBalance (initialTopUp suggested minDays)

/-- Lines 103-114: when a positive top-up remains, a set `maxTopUp` below it
aborts with the exceeds-cap error; otherwise the top-up is deposited. -/
def handlePayments (balance suggested : Int) (opts : PaymentOptions) : PaymentResult :=
  let required := requiredTopUpOf balance suggested opts.minDays opts.maxBalance
  if 0 < required then
    match opts.maxTopUp with
    | some mt => if mt < required then .capExceeded required else .ok required
    | none => .ok required
  else .ok 0

/-! ## Context store (src/context.js)

The stored record is the file `action-context/context.json`.  A read of it
has three possible shapes, mirroring `loadContext`'s two `try` blocks:
the file is missing (`readFile` throws), it exists but `JSON.parse` throws,
or it parses to some JSON value.  The model input `Option (Option Json)`
encodes these as `none`, `some none` and `some (some j)`. -/

/-- The empty record `{}` returned when nothing usable is stored. -/
def emptyContext : Json := .obj []

/-- `loadContext` (context.js lines 28-42) together with every console
message its body emits.  The source catches both the read/parse failure and
applies `parsed && typeof parsed === 'object' ? parsed : {}`; neither the
`catch` arm nor any other line of the body logs anything, so the emitted
message list is `[]` in every case. -/
def loadContext : Option (Option Json) → Json × List String
  | none => (emptyContext, [])
  | some none => (emptyContext, [])
  | some (some j) => (if jsTruthy j && jsTypeofIsObject j then j else emptyContext, [])

/-- Key lookup in a JS object's field list (first binding wins). -/
def jsLookup (fields : List (String × Json)) (k : String) : Option Json :=
  (fields.find? (fun p => p.1 == k)).map Prod.snd

/-- What JS spread does to a binding of the first object: its value is
overwritten when the same key also occurs in `patch`. -/
def overwriteBy (patch : List (String × Json)) (kv : String × Json) : String × Json :=
  match jsLookup patch kv.1 with
  | some v => (kv.1, v)
  | none => kv

/-- Whether a binding of the second spread operand introduces a key absent
from the first (such bindings are appended after the first object's). -/
def newKeyFor (existing : List (String × Json)) (kv : String × Json) : Bool :=
  (jsLookup existing kv.1).isNone

/-- The merge step of `mergeAndSaveContext` (context.js line 63):
`{ ...existing, ...patch }`.  JS spread keeps the keys of `existing` in
place, overwriting the value whenever the key also occurs in `patch`, and
appends the keys that occur only in `patch`. -/
def spreadMerge (existing patch : List (String × Json)) : List (String × Json) :=
  existing.map (overwriteBy patch) ++ patch.filter (newKeyFor existing)

/-! ## Reuse resolution: `prepareReuse` (src/upload.js lines 55-160)

All effectful collaborators are inputs of the model: the local context read
(`readFile` + `JSON.parse`, a single `try`), the artifact listing
(`octokit.paginate(listArtifactsForRepo)`) and the block that downloads the
found bundle and merges its metadata (`downloadBuildArtifact` through the
final `mergeAndSaveContext`/cleanup).  `Except Unit` marks a throwing step.
Every `catch` of the source is reproduced structurally, so the model —
like the source function — always returns a plain outcome. -/

/-- Where a reuse hit came from: tier 1 (the local context record) or
tier 2 (a downloaded cross-run artifact). -/
inductive ReuseSource where
  | contextSource
  | artifactSource
deriving Repr, DecidableEq

structure ReuseOutcome where
  found : Bool
  source : Option ReuseSource
  /-- Whether the external channel was queried (the tier-2 artifact
  listing); `prepareReuse` performs no other network call before it. -/
  queriedNetwork : Bool
deriving Repr, DecidableEq

structure ReuseEnv where
  /-- Result of reading and parsing `action-context/context.json`:
  `.error ()` when `readFile` or `JSON.parse` throws (both land in the same
  `catch`), `.ok j` when the file parses to `j`. -/
  localCtx : Except Unit Json
  /-- `GITHUB_TOKEN`/`github_token` is available (truthy). -/
  hasToken : Bool
  /-- `GITHUB_REPOSITORY`, `""` when unset. -/
  repoFull : String
  /-- Result of the artifact listing: entries are (name, expired). -/
  listing : Except Unit (List (String × Bool))
  /-- Result of the download-and-merge block run on a found artifact
  (`downloadBuildArtifact`, metadata merge, CAR copy); any throw inside it
  is caught by the same `catch` as a listing failure. -/
  download : Except Unit Unit
deriving Repr

/-- The long-lived reuse-bundle name, `filecoin-pin-${rootCid}`
(upload.js lines 85 and 419): a function of the content hash alone. -/
def reuseArtifactName (rootCid : String) : String := "filecoin-pin-" ++ rootCid

/-- Tier 1, upload.js lines 67-72: the stored context matches when
`ctx.piece_cid` and `ctx.data_set_id` are truthy and `ctx.ipfs_root_cid`
is strictly equal to the target hash.  A read/parse throw (or the
`TypeError` of a property access on a parsed `null`) is caught and counts
as no match. -/
def localRecordMatches (rootCid : String) (localCtx : Except Unit Json) : Bool :=
  match localCtx with
  | .error _ => false
  | .ok ctx =>
      jsTruthyOpt (jsGet ctx "piece_cid") && jsTruthyOpt (jsGet ctx "data_set_id")
        && jsIsStr (jsGet ctx "ipfs_root_cid") rootCid

/-- Split off the characters before the first `/`, returning the remainder
(`none` when there is no `/` at all, i.e. `split('/')` has one element). -/
def sliceUntilSlash : List Char → List Char × Option (List Char)
  | [] => ([], none)
  | c :: rest =>
    if c = '/' then ([], some rest)
    else
      let (seg, r) := sliceUntilSlash rest
      (c :: seg, r)

/-- `owner && repo` after `const [owner, repo] = repoFull.split('/')`
(upload.js lines 79-80): the first two `/`-separated segments exist and are
nonempty. -/
def repoSplitValid (repoFull : String) : Bool :=
  match sliceUntilSlash repoFull.toList with
  | (_, none) => false
  | (owner, some rest) => !owner.isEmpty && !(sliceUntilSlash rest).1.isEmpty

/-- `prepareReuse(workspace, rootCid, buildRunId)` (upload.js 55-160). -/
def prepareReuse (rootCid : String) (env : ReuseEnv) : ReuseOutcome :=
  if rootCid == "" then ⟨false, none, false⟩
  else if localRecordMatches rootCid env.localCtx then ⟨true, some .contextSource, false⟩
  else if env.hasToken && env.repoFull != "" then
    if !repoSplitValid env.repoFull then ⟨false, none, false⟩
    else
      match env.listing with
      | .error _ => ⟨false, none, true⟩
      | .ok artifacts =>
        match artifacts.find? (fun a => a.1 == reuseArtifactName rootCid && !a.2) with
        | none => ⟨false, none, true⟩
        | some _ =>
          match env.download with
          | .error _ => ⟨false, none, true⟩
          | .ok _ => ⟨true, some .artifactSource, true⟩
  else ⟨false, none, false⟩

/-! ## Standalone reuse script: `main` of src/prepare-reuse.js

Unlike `prepareReuse` in upload.js, the script wraps only the
metadata-merge/CAR-copy block in a `try`; the context parse, the artifact
listing and the artifact download run bare inside `main`, whose only
handler is `main().catch(... process.exit(1))`.  A throw in those steps is
therefore a fatal process failure, modelled as `.error ()`. -/

structure ScriptEnv where
  /-- `ROOT_CID` environment variable, `""` when unset. -/
  rootCid : String
  /-- The context file: `none` = absent (`fileExists` false),
  `some none` = present but `JSON.parse` throws,
  `some (some j)` = parses to `j`. -/
  ctxFile : Option (Option Json)
  hasToken : Bool
  repoFull : String
  listing : Except Unit (List (String × Bool))
  /-- Result of `downloadArtifact` + zip write + `unzip` (uncaught). -/
  download : Except Unit Unit
deriving Repr

structure ScriptOutputs where
  found : Bool
  source : Option ReuseSource
deriving Repr, DecidableEq

/-- `main` of prepare-reuse.js (the reuse-resolution part, lines 25-125):
`.error ()` is the `process.exit(1)` path of `main().catch`. -/
def prepareReuseScript (env : ScriptEnv) : Except Unit ScriptOutputs :=
  if env.rootCid == "" then .ok ⟨false, none⟩
  else
    match env.ctxFile with
    | some none => .error ()
    | some (some .null) => .error ()
    | ctxRead =>
      let ctx : Json := match ctxRead with
        | some (some j) => j
        | _ => emptyContext
      if jsTruthyOpt (jsGet ctx "piece_cid") && jsTruthyOpt (jsGet ctx "data_set_id")
          && jsIsStr (jsGet ctx "ipfs_root_cid") env.rootCid then
        .ok ⟨true, some .contextSource⟩
      else if env.hasToken && env.repoFull != "" then
        match env.listing with
        | .error _ => .error ()
        | .ok artifacts =>
          match artifacts.find? (fun a => a.1 == reuseArtifactName env.rootCid && !a.2) with
          | none => .ok ⟨false, none⟩
          | some _ =>
            match env.download with
            | .error _ => .error ()
            | .ok _ => .ok ⟨true, some .artifactSource⟩
      else .ok ⟨false, none⟩

/-! ## Artifact-identity resolvers

Two resolvers exist in the source: the shared one in src/artifacts.js
(lines 387-436), used by the upload phase, and a local one in src/build.js
(lines 38-56), used by the build phase. -/

/-- The digit run captured by `(\d+)` converted by `parseInt(_, 10)`. -/
def digitsToNat (ds : List Char) : Nat :=
  ds.foldl (fun n c => 10 * n + (c.toNat - '0'.toNat)) 0

/-- Try to strip `pat` from the front of `cs`. -/
def stripLit : List Char → List Char → Option (List Char)
  | [], cs => some cs
  | _ :: _, [] => none
  | p :: ps, c :: cs => if p = c then stripLit ps cs else none

/-- The regex search `/Merge pull request #(\d+)/` of artifacts.js line 415:
at each position try the literal followed by at least one digit; `\d+` is
greedy, so the capture is the maximal digit run. -/
def scanMergePr : List Char → Option Nat
  | [] => none
  | c :: cs =>
    match stripLit "Merge pull request #".toList (c :: cs) with
    | some rest =>
      let ds := rest.takeWhile Char.isDigit
      if ds.isEmpty then scanMergePr cs else some (digitsToNat ds)
    | none => scanMergePr cs

/-- The trigger-event fields the resolvers read from the parsed payload:
`event.pull_request?.number`, `event.head_commit?.message` and
`event.workflow_run?.pull_requests?.[0]?.number` (each `none` when the
chain hits `undefined`). -/
structure GhEvent where
  pullRequestNumber : Option Nat
  headCommitMessage : Option String
  workflowRunPrNumber : Option Nat
deriving Repr

/-- The inputs of a resolver run: `GITHUB_EVENT_NAME`, `GITHUB_RUN_ID`
(both `""` when unset), the `artifact_name` manual override (`""` when not
given — `getInput` returns the empty string) and the event payload. -/
structure NameEnv where
  eventName : String
  runId : String
  artifactNameInput : String
  event : GhEvent
deriving Repr

/-- JS truthiness of `event...number` fields (`0` is falsy). -/
def optNatTruthy : Option Nat → Bool
  | some n => n != 0
  | none => false

/-- `determineArtifactName` of src/artifacts.js (lines 387-436), the
upload-phase resolver: manual override verbatim; else a PR number from a
direct PR trigger (`pull_request` / `pull_request_target`), from a push
merge-commit message, or from the `workflow_run` wrapper event; else the
run-id fallback. -/
def determineArtifactNameShared (env : NameEnv) : String :=
  if env.artifactNameInput != "" then env.artifactNameInput
  else
    let prNumber : Option Nat :=
      if env.eventName == "pull_request" && optNatTruthy env.event.pullRequestNumber then
        env.event.pullRequestNumber
      else if env.eventName == "pull_request_target" && optNatTruthy env.event.pullRequestNumber then
        env.event.pullRequestNumber
      else if env.eventName == "push" then
        match env.event.headCommitMessage with
        | some msg => if msg != "" then scanMergePr msg.toList else none
        | none => none
      else if env.eventName == "workflow_run" && optNatTruthy env.event.workflowRunPrNumber then
        env.event.workflowRunPrNumber
      else none
    match prNumber with
    | some n => if n != 0 then "filecoin-build-pr-" ++ toString n else "filecoin-build-" ++ env.runId
    | none => "filecoin-build-" ++ env.runId

/-- `determineArtifactName` of src/build.js (lines 38-56), the build-phase
resolver: manual override; else the PR number of a direct `pull_request`
trigger; else the run-id fallback.  It has no `pull_request_target`,
merge-commit or `workflow_run` branch. -/
def determineArtifactNameBuild (env : NameEnv) : String :=
  if env.artifactNameInput != "" then env.artifactNameInput
  else if env.eventName == "pull_request" && optNatTruthy env.event.pullRequestNumber then
    match env.event.pullRequestNumber with
    | some n => "filecoin-build-pr-" ++ toString n
    | none => "filecoin-build-" ++ env.runId
  else "filecoin-build-" ++ env.runId

/-! ## Upload orchestration: `runUpload` (src/upload.js lines 165-463)

The claims about `runUpload` concern which collaborators it invokes in
which order, so the model produces the run's step trace.  Steps after the
point a claim cares about are kept at call granularity. -/

inductive UStep where
  | downloadBuildArtifactStep
  | loadContextStep
  /-- `writeOutputs` with `upload_status: 'fork-pr-blocked'` (line 221). -/
  | blockedOutputs
  | blockedSummary
  | blockedComment
  /-- The `throw` at line 252 when the context has no root CID. -/
  | fatalNoRootCid
  /-- `restoreCache` (line 260). -/
  | restoreCacheStep
  /-- The `prepareReuse` call (line 270). -/
  | reuseResolutionStep
  | reusedOutputs
  /-- A `handlePayments` call (line 305 or 377). -/
  | paymentGuardStep
  /-- `uploadCarToFilecoin` (line 380), the paid publish. -/
  | uploadToFilecoinStep
  /-- `uploadResultArtifact` under the content-hash-keyed name (line 420). -/
  | publishReuseBundleStep (name : String)
  | uploadedOutputs
deriving Repr, DecidableEq

structure UploadEnv where
  /-- Context loaded right after the build-artifact download. -/
  ctx : Json
  /-- Collaborator results for the `prepareReuse` call. -/
  reuseEnv : ReuseEnv
  /-- Whether `walletPrivateKey` is set (used on the reuse path). -/
  walletKey : Bool
deriving Repr

/-- The step trace of `runUpload` from the build-artifact download to the
end of the run (upload.js 165-463), as a function of the loaded context and
the collaborator results.  The fork-PR check (line 214) happens on the
freshly loaded context, before any cache restore, reuse lookup, payment or
upload. -/
def runUploadTrace (env : UploadEnv) : List UStep :=
  [.downloadBuildArtifactStep, .loadContextStep] ++
  (if jsIsStr (jsGet env.ctx "upload_status") "fork-pr-blocked" then
    [.blockedOutputs, .blockedSummary, .blockedComment]
  else if !(jsTruthyOpt (jsGet env.ctx "ipfs_root_cid")) then
    [.fatalNoRootCid]
  else
    let rootCid := match jsGet env.ctx "ipfs_root_cid" with
      | some (.str s) => s
      | _ => ""
    [.restoreCacheStep, .reuseResolutionStep] ++
    (if (prepareReuse rootCid env.reuseEnv).found then
      [.reusedOutputs] ++ (if env.walletKey then [.paymentGuardStep] else [])
    else
      [.paymentGuardStep, .uploadToFilecoinStep,
        .publishReuseBundleStep (reuseArtifactName rootCid), .uploadedOutputs]))

/-! ## Executions and the content-addressed reuse identity

An execution's trigger-dependent coordinates, used to state that the
reuse-bundle identity depends on none of them. -/

structure ExecutionCtx where
  triggerKind : String
  runId : String
  branch : String
  rootCid : String
deriving Repr

/-- The reuse-bundle identity an execution derives (upload.js lines 85 and
419 both build it from the content hash in the context, nothing else). -/
def reuseNameOfExecution (e : ExecutionCtx) : String := reuseArtifactName e.rootCid

/-! ## Helper lemmas -/

theorem initialTopUp_nonneg (suggested minDays : Int) : 0 ≤ initialTopUp suggested minDays := by
  unfold initialTopUp
  split_ifs <;> omega

theorem requiredTopUpOf_nonneg (balance suggested minDays : Int) (maxBalance : Option Int) :
    0 ≤ requiredTopUpOf balance suggested minDays maxBalance := by
  have h0 := initialTopUp_nonneg suggested minDays
  unfold requiredTopUpOf clampToMaxBalance
  rcases maxBalance with _ | mb
  · exact h0
  · dsimp only
    split_ifs <;> omega

/-! ## Claim theorems -/

/-- C1: whenever a top-up cap (`maxTopUp`) is set (to a nonnegative amount,
as produced from a cap input) and the computed required top-up exceeds it,
`handlePayments` throws the exceeds-cap error carrying that top-up — so no
deposit is made and the top-up is never silently clamped to the cap — and
in every run the deposited amount is bounded by the cap. -/
theorem handlePayments_respects_topUp_cap
    (balance suggested minDays : Int) (maxBalance : Option Int) (mt : Int)
    (hmt : 0 ≤ mt) :
    (mt < requiredTopUpOf balance suggested minDays maxBalance →
      handlePayments balance suggested ⟨minDays, maxBalance, some mt⟩ =
        .capExceeded (requiredTopUpOf balance suggested minDays maxBalance)) ∧
    depositMade (handlePayments balance suggested ⟨minDays, maxBalance, some mt⟩) ≤ mt := by
  constructor
  · intro h
    have hr : 0 < requiredTopUpOf balance suggested minDays maxBalance :=
      lt_of_le_of_lt hmt h
    simp only [handlePayments, if_pos hr, if_pos h]
  · by_cases hr : 0 < requiredTopUpOf balance suggested minDays maxBalance
    · by_cases hlt : mt < requiredTopUpOf balance suggested minDays maxBalance
      · simp only [handlePayments, if_pos hr, if_pos hlt, depositMade]
        exact hmt
      · simp only [handlePayments, if_pos hr, if_neg hlt, depositMade]
        omega
    · simp only [handlePayments, if_neg hr, depositMade]
      exact hmt

/-- Witness for C1: target runway demands 30 units, balance 0, cap 0.10
scaled to 10: the guard throws the exceeds-cap error. -/
theorem handlePayments_respects_topUp_cap_witness :
    handlePayments 0 30 ⟨30, none, some 10⟩ = .capExceeded 30 :=
  (handlePayments_respects_topUp_cap 0 30 30 none 10 (by decide)).1 (by decide)

/-- C2 counterexample: with the balance cap set to exactly `0` the guard
`maxBalance > 0n` fails, so although the current balance (0) already equals
the cap, the authorized top-up is 5, not 0, and the deposit pushes the
balance above the cap. -/
theorem handlePayments_balance_cap_counterexample :
    handlePayments 0 5 ⟨1, some 0, none⟩ = .ok 5 ∧
      handlePayments 0 5 ⟨1, some 0, none⟩ ≠ .ok 0 ∧ ¬((0 : Int) + 5 ≤ 0) := by
  refine ⟨rfl, ?_, by decide⟩
  decide

/-- C2 (amended: the cap must be set to a strictly positive value): at or
above the cap the run deposits nothing, and below it any completed run's
deposit keeps the balance at or below the cap. -/
theorem handlePayments_respects_balance_cap
    (balance suggested minDays : Int) (mt : Option Int) (mb : Int)
    (hmb : 0 < mb) :
    (mb ≤ balance → handlePayments balance suggested ⟨minDays, some mb, mt⟩ = .ok 0) ∧
    (∀ d, handlePayments balance suggested ⟨minDays, some mb, mt⟩ = .ok d →
      balance + d ≤ mb ∨ d = 0) := by
  have h0 := initialTopUp_nonneg suggested minDays
  constructor
  · intro hbal
    have hreq : requiredTopUpOf balance suggested minDays (some mb) = 0 := by
      unfold requiredTopUpOf clampToMaxBalance
      simp only [if_pos hmb, if_pos hbal]
    simp only [handlePayments, hreq]
    rfl
  · intro d hd
    by_cases hbal : mb ≤ balance
    · have hreq : requiredTopUpOf balance suggested minDays (some mb) = 0 := by
        unfold requiredTopUpOf clampToMaxBalance
        simp only [if_pos hmb, if_pos hbal]
      simp only [handlePayments, hreq] at hd
      simp only [show ¬((0 : Int) < 0) by omega, if_false] at hd
      right
      exact (PaymentResult.ok.injEq _ _).mp hd.symm |>.symm ▸ rfl
    · have hble : ¬ mb ≤ balance := hbal
      have hreq : requiredTopUpOf balance suggested minDays (some mb) =
          clampToMaxBalance balance (some mb) (initialTopUp suggested minDays) := rfl
      set r0 := initialTopUp suggested minDays with hr0def
      have hclamp : requiredTopUpOf balance suggested minDays (some mb) ≤ mb - balance ∨
          (requiredTopUpOf balance suggested minDays (some mb) = r0 ∧ balance + r0 ≤ mb) := by
        rw [hreq]
        unfold clampToMaxBalance
        simp only [if_pos hmb, if_neg hble]
        split_ifs with hproj hneg
        · left; omega
        · left; omega
        · right; constructor
          · rfl
          · omega
      have hnn := requiredTopUpOf_nonneg balance suggested minDays (some mb)
      set r := requiredTopUpOf balance suggested minDays (some mb) with hrdef
      simp only [handlePayments, ← hrdef] at hd
      by_cases hpos : 0 < r
      · simp only [if_pos hpos] at hd
        rcases mt with _ | m
        · simp only [PaymentResult.ok.injEq] at hd
          subst hd
          rcases hclamp with h | ⟨h1, h2⟩
          · left; omega
          · left; omega
        · by_cases hcap : m < r
          · simp only [if_pos hcap] at hd
            cases hd
          · simp only [if_neg hcap, PaymentResult.ok.injEq] at hd
            subst hd
            rcases hclamp with h | ⟨h1, h2⟩
            · left; omega
            · left; omega
      · simp only [if_neg hpos, PaymentResult.ok.injEq] at hd
        right
        omega

/-- Witness for C2's amended theorem: balance 5, cap 5 → deposit 0 even
though the runway target would demand 7. -/
theorem handlePayments_respects_balance_cap_witness :
    handlePayments 5 7 ⟨30, some 5, none⟩ = .ok 0 :=
  (handlePayments_respects_balance_cap 5 7 30 none 5 (by decide)).1 (by decide)

/-- C3: a balance cap that parses to exactly `0` is treated as unset — the
guard requires `maxBalance > 0n` — so `handlePayments` behaves exactly as
with no cap, and a deposit can push the balance above that zero cap. -/
theorem handlePayments_zero_balance_cap_ignored :
    (∀ (balance suggested minDays : Int) (mt : Option Int),
        handlePayments balance suggested ⟨minDays, some 0, mt⟩ =
          handlePayments balance suggested ⟨minDays, none, mt⟩) ∧
      handlePayments 0 5 ⟨1, some 0, none⟩ = .ok 5 ∧ ¬((0 : Int) + 5 ≤ 0) := by
  refine ⟨fun balance suggested minDays mt => ?_, rfl, by decide⟩
  rfl

/-- C8 counterexample: on an unparsable stored record `loadContext` does
return the empty record, but its body emits no console message at all — the
`catch` arm is silent — so the corruption case is not "logged loudly" as
the claim states. -/
theorem loadContext_corruption_unlogged_counterexample :
    (loadContext (some none)).1 = emptyContext ∧ (loadContext (some none)).2 = [] :=
  ⟨rfl, rfl⟩

/-- C8 (amended: no logging happens): `loadContext` never fails — a missing
record, an unparsable record, and a record parsing to a falsy or
non-object value all yield the empty record (silently). -/
theorem loadContext_never_fails (j : Json)
    (h : jsTruthy j = false ∨ jsTypeofIsObject j = false) :
    (loadContext none).1 = emptyContext ∧
    (loadContext (some none)).1 = emptyContext ∧
    (loadContext (some (some j))).1 = emptyContext := by
  refine ⟨rfl, rfl, ?_⟩
  rcases h with h | h <;> simp [loadContext, h]

/-- Witness for C8's amended theorem: a record storing the number `5`. -/
theorem loadContext_never_fails_witness :
    (loadContext (some (some (Json.num 5)))).1 = emptyContext :=
  (loadContext_never_fails (Json.num 5) (Or.inr rfl)).2.2

/-- C10: the reuse-bundle identity is a function of the content hash alone
— two executions with the same hash derive the same string regardless of
trigger kind, run id or branch. -/
theorem reuseName_depends_only_on_hash (e₁ e₂ : ExecutionCtx)
    (h : e₁.rootCid = e₂.rootCid) :
    reuseNameOfExecution e₁ = reuseNameOfExecution e₂ := by
  simp [reuseNameOfExecution, reuseArtifactName, h]

/-- Witness for C10: a PR-triggered and a push-triggered execution on
different runs and branches, same content hash, same bundle name. -/
theorem reuseName_depends_only_on_hash_witness :
    reuseNameOfExecution ⟨"pull_request", "1111", "feature", "bafyhash"⟩ =
      reuseNameOfExecution ⟨"push", "2222", "main", "bafyhash"⟩ :=
  reuseName_depends_only_on_hash _ _ rfl

/-- The failing input for C6: a push whose head commit is a merge commit of
PR 7, run id 123, no manual override. -/
def mergePushEnv : NameEnv :=
  ⟨"push", "123", "", ⟨none, some "Merge pull request #7 from user/branch", none⟩⟩

/-- C6: evaluation at the failing input.  The upload-phase resolver
(src/artifacts.js) maps a push merge-commit to the PR-keyed name, but the
build-phase resolver (src/build.js) has no merge-commit branch and falls
back to the run id, so the two phases of one logical run resolve different
strings — contradicting the claim (and the repository's FLOW.md, which
documents merge builds as `filecoin-build-pr-{n}`). -/
theorem determineArtifactName_phase_divergence :
    determineArtifactNameShared mergePushEnv = "filecoin-build-pr-7" ∧
    determineArtifactNameBuild mergePushEnv = "filecoin-build-123" ∧
    determineArtifactNameShared mergePushEnv ≠ determineArtifactNameBuild mergePushEnv := by
  refine ⟨rfl, rfl, ?_⟩
  decide

/-- C7: when the loaded context marks the run `fork-pr-blocked`, the upload
phase only records and reports the blocked status: its trace is exactly
download, load, blocked outputs/summary/comment — no cache restore, no
reuse resolution (hence no cross-run bundle lookup), no payment call and no
upload. -/
theorem runUpload_blocked_skips_everything (env : UploadEnv)
    (h : jsIsStr (jsGet env.ctx "upload_status") "fork-pr-blocked" = true) :
    runUploadTrace env =
      [.downloadBuildArtifactStep, .loadContextStep,
        .blockedOutputs, .blockedSummary, .blockedComment] ∧
    UStep.restoreCacheStep ∉ runUploadTrace env ∧
    UStep.reuseResolutionStep ∉ runUploadTrace env ∧
    UStep.paymentGuardStep ∉ runUploadTrace env ∧
    UStep.uploadToFilecoinStep ∉ runUploadTrace env := by
  have htrace : runUploadTrace env =
      [.downloadBuildArtifactStep, .loadContextStep,
        .blockedOutputs, .blockedSummary, .blockedComment] := by
    simp [runUploadTrace, h]
  refine ⟨htrace, ?_, ?_, ?_, ?_⟩ <;> rw [htrace] <;> decide

/-- Witness for C7: a context whose `upload_status` is `fork-pr-blocked`. -/
theorem runUpload_blocked_skips_everything_witness :
    runUploadTrace ⟨Json.obj [("upload_status", Json.str "fork-pr-blocked")],
        ⟨.ok Json.null, false, "", .ok [], .ok ()⟩, false⟩ =
      [.downloadBuildArtifactStep, .loadContextStep,
        .blockedOutputs, .blockedSummary, .blockedComment] :=
  (runUpload_blocked_skips_everything
    ⟨Json.obj [("upload_status", Json.str "fork-pr-blocked")],
      ⟨.ok Json.null, false, "", .ok [], .ok ()⟩, false⟩ rfl).1

/-- C4 counterexample: in the standalone prepare-reuse.js script a reuse
bundle that is listed but cannot be downloaded is NOT treated as a miss:
the `downloadArtifact` throw is uncaught inside `main`, so
`main().catch(... process.exit(1))` turns it into a fatal process failure. -/
theorem prepareReuseScript_fatal_counterexample :
    prepareReuseScript ⟨"bafyroot", some (some (Json.obj [])), true, "owner/repo",
      .ok [("filecoin-pin-bafyroot", false)], .error ()⟩ = .error () := rfl

/-- C4 (amended: restricted to `prepareReuse` of upload.js; the standalone
prepare-reuse.js script instead exits fatally on tier-1 parse errors and
tier-2 listing/download errors): in `prepareReuse` a tier-1 read/parse
error behaves exactly like a non-matching local record, and under a
tier-1 miss both a listing error and a failed download of a found bundle
yield a plain not-found outcome — never an escaping exception. -/
theorem prepareReuse_tier_errors_are_misses (rootCid : String) (env : ReuseEnv) :
    (env.localCtx = .error () →
      prepareReuse rootCid env = prepareReuse rootCid { env with localCtx := .ok Json.null }) ∧
    (localRecordMatches rootCid env.localCtx = false → env.listing = .error () →
      (prepareReuse rootCid env).found = false) ∧
    (localRecordMatches rootCid env.localCtx = false → env.download = .error () →
      (prepareReuse rootCid env).found = false) := by
  obtain ⟨lc, ht, rf, ls, dl⟩ := env
  refine ⟨?_, ?_, ?_⟩
  · intro h
    have h' : lc = Except.error () := h
    subst h'
    rfl
  · intro h1 h2
    have h1' : localRecordMatches rootCid lc = false := h1
    have h2' : ls = Except.error () := h2
    subst h2'
    simp only [prepareReuse, h1', Bool.false_eq_true, if_false]
    split_ifs <;> rfl
  · intro h1 h3
    have h1' : localRecordMatches rootCid lc = false := h1
    have h3' : dl = Except.error () := h3
    subst h3'
    rcases ls with u | arts
    · simp only [prepareReuse, h1', Bool.false_eq_true, if_false]
      split_ifs <;> rfl
    · simp only [prepareReuse, h1', Bool.false_eq_true, if_false]
      split_ifs <;> try rfl
      all_goals
        cases List.find? (fun a => a.1 == reuseArtifactName rootCid && !a.2) arts <;> rfl

/-- Witness for C4's amended theorem: tier-1 parse error plus tier-2
listing error still produce a plain miss. -/
theorem prepareReuse_tier_errors_are_misses_witness :
    (prepareReuse "bafyroot"
      ⟨.error (), true, "owner/repo", .error (), .ok ()⟩).found = false :=
  (prepareReuse_tier_errors_are_misses "bafyroot"
    ⟨.error (), true, "owner/repo", .error (), .ok ()⟩).2.1 rfl rfl

/-- C5: for a nonempty content hash, `prepareReuse` checks the local
context record first and returns from it without touching the network, and
the tier-2 artifact listing is only ever queried when the local record did
not match. -/
theorem prepareReuse_local_tier_first (rootCid : String) (env : ReuseEnv)
    (hcid : rootCid ≠ "") :
    (localRecordMatches rootCid env.localCtx = true →
      prepareReuse rootCid env = ⟨true, some .contextSource, false⟩) ∧
    ((prepareReuse rootCid env).queriedNetwork = true →
      localRecordMatches rootCid env.localCtx = false) := by
  have hbeq : (rootCid == "") = false := by
    simp only [beq_eq_false_iff_ne, ne_eq]
    exact hcid
  constructor
  · intro h
    simp [prepareReuse, hbeq, h]
  · intro h
    by_contra hc
    rw [Bool.not_eq_false] at hc
    simp [prepareReuse, hbeq, hc] at h

/-- Witness for C5: a context record matching the hash and a listed
artifact for the same hash — the local record wins and the network flag
stays off. -/
theorem prepareReuse_local_tier_first_witness :
    prepareReuse "bafyroot"
      ⟨.ok (Json.obj [("piece_cid", Json.str "p"), ("data_set_id", Json.str "d"),
          ("ipfs_root_cid", Json.str "bafyroot")]),
        true, "owner/repo", .ok [("filecoin-pin-bafyroot", false)], .ok ()⟩ =
      ⟨true, some .contextSource, false⟩ :=
  (prepareReuse_local_tier_first "bafyroot"
    ⟨.ok (Json.obj [("piece_cid", Json.str "p"), ("data_set_id", Json.str "d"),
        ("ipfs_root_cid", Json.str "bafyroot")]),
      true, "owner/repo", .ok [("filecoin-pin-bafyroot", false)], .ok ()⟩
    (by decide)).1 (by rfl)

/-! ### Merge lemmas (context.js `{ ...existing, ...patch }`) -/

theorem overwriteBy_fst (p : List (String × Json)) (kv : String × Json) :
    (overwriteBy p kv).1 = kv.1 := by
  unfold overwriteBy
  cases jsLookup p kv.1 <;> rfl

theorem overwriteBy_idem (p : List (String × Json)) (kv : String × Json) :
    overwriteBy p (overwriteBy p kv) = overwriteBy p kv := by
  rcases h : jsLookup p kv.1 with _ | v
  · simp [overwriteBy, h]
  · simp [overwriteBy, h]

theorem jsLookup_cons (kv : String × Json) (l : List (String × Json)) (k : String) :
    jsLookup (kv :: l) k = if kv.1 == k then some kv.2 else jsLookup l k := by
  by_cases h : (kv.1 == k) = true
  · simp [jsLookup, List.find?_cons_of_pos _ h, h]
  · simp [jsLookup, List.find?_cons_of_neg _ h, h]

theorem jsLookup_append (a b : List (String × Json)) (k : String) :
    jsLookup (a ++ b) k = (jsLookup a k).or (jsLookup b k) := by
  unfold jsLookup
  rw [List.find?_append]
  cases a.find? (fun p => p.1 == k) <;> simp

theorem jsLookup_map_overwriteBy (e p : List (String × Json)) (k : String) :
    jsLookup (e.map (overwriteBy p)) k =
      match jsLookup e k with
      | some v => some ((jsLookup p k).getD v)
      | none => none := by
  induction e with
  | nil => rfl
  | cons kv rest ih =>
    by_cases hk : (kv.1 == k) = true
    · have hk' : kv.1 = k := eq_of_beq hk
      subst hk'
      rcases hp : jsLookup p kv.1 with _ | v
      · simp [List.map_cons, jsLookup_cons, overwriteBy_fst, overwriteBy, hp]
      · simp [List.map_cons, jsLookup_cons, overwriteBy_fst, overwriteBy, hp]
    · simp [List.map_cons, jsLookup_cons, overwriteBy_fst, hk, ih]

theorem jsLookup_filter_newKeyFor (e p : List (String × Json)) (k : String) :
    jsLookup (p.filter (newKeyFor e)) k =
      if (jsLookup e k).isNone then jsLookup p k else none := by
  induction p with
  | nil => cases h : (jsLookup e k).isNone <;> simp [jsLookup, h]
  | cons kv rest ih =>
    by_cases hkeep : newKeyFor e kv = true
    · rw [List.filter_cons_of_pos hkeep, jsLookup_cons, jsLookup_cons]
      by_cases hk : (kv.1 == k) = true
      · have hk' : kv.1 = k := eq_of_beq hk
        subst hk'
        have hn : (jsLookup e kv.1).isNone = true := hkeep
        simp [hk, hn]
      · simp [hk, ih]
    · rw [List.filter_cons_of_neg hkeep, ih, jsLookup_cons]
      by_cases hk : (kv.1 == k) = true
      · have hk' : kv.1 = k := eq_of_beq hk
        subst hk'
        have hn : (jsLookup e kv.1).isNone = false := by
          rcases hj : jsLookup e kv.1 with _ | v
          · exact absurd (by simp [newKeyFor, hj]) hkeep
          · rfl
        simp [hn, hk]
      · simp [hk]

/-- Key-level description of the spread merge: a key maps to the `patch`
value when present there, else to the `existing` value. -/
theorem jsLookup_spreadMerge (e p : List (String × Json)) (k : String) :
    jsLookup (spreadMerge e p) k = (jsLookup p k).or (jsLookup e k) := by
  unfold spreadMerge
  rw [jsLookup_append, jsLookup_map_overwriteBy, jsLookup_filter_newKeyFor]
  rcases he : jsLookup e k with _ | v <;> rcases hp : jsLookup p k with _ | w <;> simp

/-- In an object with distinct keys, looking up a binding's key finds that
binding. -/
theorem jsLookup_self (p : List (String × Json)) (hnd : (p.map Prod.fst).Nodup)
    {kv : String × Json} (hm : kv ∈ p) :
    jsLookup p kv.1 = some kv.2 := by
  induction p with
  | nil => cases hm
  | cons hd tl ih =>
    rw [List.map_cons, List.nodup_cons] at hnd
    rcases List.mem_cons.mp hm with h | h
    · rw [h, jsLookup_cons]
      simp
    · rw [jsLookup_cons]
      have hne : (hd.1 == kv.1) = false := by
        rw [beq_eq_false_iff_ne]
        intro hcontra
        apply hnd.1
        rw [hcontra]
        exact List.mem_map_of_mem Prod.fst h
      simp only [hne, Bool.false_eq_true, if_false]
      exact ih hnd.2 h

theorem spreadMerge_idem (e p : List (String × Json))
    (hnd : (p.map Prod.fst).Nodup) :
    spreadMerge (spreadMerge e p) p = spreadMerge e p := by
  have hmap : (spreadMerge e p).map (overwriteBy p) = spreadMerge e p := by
    unfold spreadMerge
    rw [List.map_append, List.map_map]
    congr 1
    · exact List.map_congr_left (fun kv _ => overwriteBy_idem p kv)
    · have hfix : ∀ kv ∈ p.filter (newKeyFor e), overwriteBy p kv = kv := by
        intro kv hkv
        have hp : kv ∈ p := (List.mem_filter.mp hkv).1
        have hself := jsLookup_self p hnd hp
        simp [overwriteBy, hself]
      calc (p.filter (newKeyFor e)).map (overwriteBy p)
          = (p.filter (newKeyFor e)).map id := List.map_congr_left hfix
        _ = p.filter (newKeyFor e) := List.map_id _
  have hfilter : p.filter (newKeyFor (spreadMerge e p)) = [] := by
    rw [List.filter_eq_nil_iff]
    intro kv hkv
    have hself := jsLookup_self p hnd hkv
    simp [newKeyFor, jsLookup_spreadMerge, hself]
  calc spreadMerge (spreadMerge e p) p
      = (spreadMerge e p).map (overwriteBy p) ++ p.filter (newKeyFor (spreadMerge e p)) := rfl
    _ = spreadMerge e p ++ [] := by rw [hmap, hfilter]
    _ = spreadMerge e p := List.append_nil _

/-- C9: the merge of context.js is the field-level overwrite union — every
key present in the patch takes the patch's value, every other key keeps the
existing record's value — and merging the same patch twice (for a patch
with distinct keys, as any JS object has) gives the same record as merging
it once. -/
theorem mergeContext_overwrite_union_idem (e p : List (String × Json))
    (hnd : (p.map Prod.fst).Nodup) :
    (∀ k v, jsLookup p k = some v → jsLookup (spreadMerge e p) k = some v) ∧
    (∀ k, jsLookup p k = none → jsLookup (spreadMerge e p) k = jsLookup e k) ∧
    spreadMerge (spreadMerge e p) p = spreadMerge e p := by
  refine ⟨?_, ?_, spreadMerge_idem e p hnd⟩
  · intro k v h
    rw [jsLookup_spreadMerge, h]
    rfl
  · intro k h
    rw [jsLookup_spreadMerge, h]
    cases jsLookup e k <;> rfl

/-- Witness for C9: a concrete existing record and patch. -/
theorem mergeContext_overwrite_union_idem_witness :
    jsLookup (spreadMerge [("a", Json.num 1), ("b", Json.num 2)]
        [("a", Json.num 3), ("c", Json.num 4)]) "a" = some (Json.num 3) ∧
    spreadMerge (spreadMerge [("a", Json.num 1), ("b", Json.num 2)]
        [("a", Json.num 3), ("c", Json.num 4)]) [("a", Json.num 3), ("c", Json.num 4)] =
      spreadMerge [("a", Json.num 1), ("b", Json.num 2)]
        [("a", Json.num 3), ("c", Json.num 4)] := by
  have h := mergeContext_overwrite_union_idem [("a", Json.num 1), ("b", Json.num 2)]
    [("a", Json.num 3), ("c", Json.num 4)] (by decide)
  exact ⟨h.1 "a" (Json.num 3) rfl, h.2.2⟩

end FilecoinAction
